import Mathlib

/-!
Shallow embedding of `src/main.rs` of `rust-tcp-broadcast`.

The program is a multi-client TCP relay.  The embedding below translates the
registry (`Connections`), the per-socket wrapper (`Conn`) and the per-session
loop (`handle_stream`) into pure Lean definitions.  External I/O (the results
that the operating system returns for `read`, `write` and `take_error`) is
modelled by oracle data: a `Conn` carries the result function of its underlying
socket write, and the session loop consumes a list of `Event`s, one per loop
iteration, holding the results the two syscalls of that iteration would return.

Machine integers: the registry counter is a Rust `u32`; `*counter += 1` is
modelled with wrap-around arithmetic modulo `2^32` (Rust release-profile
overflow semantics).

The Rust `Conn` struct holds a back-reference `connections: Connections`
(an `Arc` alias of the shared registry).  In this functional embedding the
registry state is passed explicitly instead, so `Conn` keeps only the data of
its own socket.
-/

/-- Error kinds distinguished by the program: `handle_stream` treats
`io::ErrorKind::WouldBlock` specially; every other kind takes the same path. -/
inductive IoErrorKind
  | wouldBlock
  | other

/-- Model of `Conn` (src/main.rs:21-25): `locked` says whether the stream mutex
is currently held by another thread at the moment of a `try_lock`, and
`writeFn` is the behaviour of the underlying `TcpStream::write` call. -/
structure Conn where
  locked : Bool
  writeFn : List Nat → Except IoErrorKind Nat

/-- Model of `Conn::write` (src/main.rs:31-36): `try_lock` failing (lock held)
short-circuits to `Ok(0)`; otherwise the underlying socket write runs and its
result is returned. -/
def Conn.write (c : Conn) (buf : List Nat) : Except IoErrorKind Nat :=
  if c.locked then Except.ok 0 else c.writeFn buf

/-- `2 ^ 32`, the modulus of Rust `u32` wrap-around arithmetic. -/
def U32 : Nat := 4294967296

/-- Model of `Connections` (src/main.rs:42-46): the shared registry, a `u32`
counter plus a `HashMap<u32, Conn>` modelled as an association list. -/
structure Connections where
  counter : Nat
  connections : List (Nat × Conn)

/-- Model of `Connections::new` (src/main.rs:68-73). -/
def Connections.new : Connections := ⟨0, []⟩

/-- Model of `Connections::store` (src/main.rs:49-55): increment the `u32`
counter (wrapping modulo `2^32`), insert the connection under the new counter
value (`HashMap::insert` replaces any entry with the same key) and return that
id. -/
def Connections.store (s : Connections) (c : Conn) : Connections × Nat :=
  let id := (s.counter + 1) % U32
  (⟨id, (id, c) :: s.connections.filter (fun p => p.1 != id)⟩, id)

/-- Model of `Connections::remove` (src/main.rs:56-58): `HashMap::remove`,
dropping the entry with the given key if present. -/
def Connections.remove (s : Connections) (id : Nat) : Connections :=
  ⟨s.counter, s.connections.filter (fun p => p.1 != id)⟩

/-- Model of `Connections::broadcast` (src/main.rs:59-67): call `Conn::write`
on every registered connection, matching each result only to log it.  The
returned log records each `(id, write result)` pair; the Rust function returns
`()` and propagates no error, and it never mutates the registry, which the
unchanged first component makes explicit. -/
def Connections.broadcast (s : Connections) (buf : List Nat) :
    Connections × List (Nat × Except IoErrorKind Nat) :=
  (s, s.connections.map (fun p => (p.1, p.2.write buf)))

/-- A concrete connection used to instantiate theorems. -/
def dummyConn : Conn := ⟨false, fun _ => Except.ok 0⟩

/-- Whether a byte is a UTF-8 continuation byte (`0x80..=0xBF`). -/
def isCont (b : Nat) : Bool := 128 ≤ b && b ≤ 191

/-- The UTF-8 encoding of U+FFFD REPLACEMENT CHARACTER. -/
def repl : List Nat := [239, 191, 189]

/-- Admissible first continuation byte of a three-byte sequence headed by `b`
(`0xE0` demands `0xA0..=0xBF`, `0xED` demands `0x80..=0x9F`). -/
def cont1E (b b1 : Nat) : Bool :=
  if b = 224 then 160 ≤ b1 && b1 ≤ 191
  else if b = 237 then 128 ≤ b1 && b1 ≤ 159
  else isCont b1

/-- Admissible first continuation byte of a four-byte sequence headed by `b`
(`0xF0` demands `0x90..=0xBF`, `0xF4` demands `0x80..=0x8F`). -/
def cont1F (b b1 : Nat) : Bool :=
  if b = 240 then 144 ≤ b1 && b1 ≤ 191
  else if b = 244 then 128 ≤ b1 && b1 ≤ 143
  else isCont b1

/-- Model of the bytes of `String::from_utf8_lossy` (src/main.rs:97): valid
UTF-8 sequences are copied through; each maximal invalid subpart (the bytes
consumed before the first offending byte, or a lone invalid byte) is replaced
by U+FFFD, per the standard library's substitution-of-maximal-subparts
behaviour. -/
def from_utf8_lossy : List Nat → List Nat
  | [] => []
  | b :: rest =>
    if b ≤ 127 then b :: from_utf8_lossy rest
    else if 194 ≤ b && b ≤ 223 then
      match rest with
      | [] => repl
      | b1 :: r =>
        if isCont b1 then b :: b1 :: from_utf8_lossy r
        else repl ++ from_utf8_lossy (b1 :: r)
    else if 224 ≤ b && b ≤ 239 then
      match rest with
      | [] => repl
      | b1 :: r =>
        if cont1E b b1 then
          match r with
          | [] => repl
          | b2 :: r2 =>
            if isCont b2 then b :: b1 :: b2 :: from_utf8_lossy r2
            else repl ++ from_utf8_lossy (b2 :: r2)
        else repl ++ from_utf8_lossy (b1 :: r)
    else if 240 ≤ b && b ≤ 244 then
      match rest with
      | [] => repl
      | b1 :: r =>
        if cont1F b b1 then
          match r with
          | [] => repl
          | b2 :: r2 =>
            if isCont b2 then
              match r2 with
              | [] => repl
              | b3 :: r3 =>
                if isCont b3 then b :: b1 :: b2 :: b3 :: from_utf8_lossy r3
                else repl ++ from_utf8_lossy (b3 :: r3)
            else repl ++ from_utf8_lossy (b2 :: r2)
        else repl ++ from_utf8_lossy (b1 :: r)
    else repl ++ from_utf8_lossy rest

/-- The ASCII bytes of `format!("[{}] ", id)` (src/main.rs:99): `[`, the
decimal digits of `id`, `]`, space. -/
def tagBytes (id : Nat) : List Nat :=
  91 :: (Nat.toDigits 10 id).map Char.toNat ++ [93, 32]

/-- The 1024-byte read buffer after `conn.read` stored `data`
(src/main.rs:91-92): `vec![0; 1024]` is freshly zero-initialised each
iteration, so the bytes past the ones read stay zero. -/
def bufAfterRead (data : List Nat) : List Nat :=
  data ++ List.replicate (1024 - data.length) 0

/-- The bytes `handle_stream` broadcasts for a positive read of `data`
(src/main.rs:95-102): the id tag followed by the lossy decoding of the whole
1024-byte buffer — the code decodes `&buf`, not `&buf[..read]`. -/
def message (id : Nat) (data : List Nat) : List Nat :=
  tagBytes id ++ from_utf8_lossy (bufAfterRead data)

/-- The oracle data of one iteration of the session loop: what
`take_error` (src/main.rs:83) and `read` (src/main.rs:92) would return. -/
structure Event where
  takeError : Except IoErrorKind (Option IoErrorKind)
  readResult : Except IoErrorKind (List Nat)

/-- Outcome of one iteration of the `handle_stream` loop: either the loop
breaks, or it continues, possibly broadcasting a message and possibly sleeping
(`sleepMs` milliseconds). -/
inductive StepResult
  | broke
  | continued (msg : Option (List Nat)) (sleepMs : Option Nat)

/-- One iteration of the loop in `handle_stream` (src/main.rs:81-109): break
when `take_error` itself fails (note: `Ok(_)` matches `Ok(Some(e))` too, so a
reported pending error does not break); then break on a zero-byte read, then
broadcast on a positive read, sleep 10 ms on `WouldBlock`, break on any other
read error. -/
def sessionStep (id : Nat) (ev : Event) : StepResult :=
  match ev.takeError with
  | Except.error _ => StepResult.broke
  | Except.ok _ =>
    match ev.readResult with
    | Except.ok data =>
      if data.isEmpty then StepResult.broke
      else StepResult.continued (some (message id data)) none
    | Except.error IoErrorKind.wouldBlock => StepResult.continued none (some 10)
    | Except.error IoErrorKind.other => StepResult.broke

/-- The loop of `handle_stream` followed by the deregistration
(src/main.rs:81-112), run over a finite trace of events.  Returns the final
registry, the list of broadcast messages, and whether the loop broke (if the
trace runs out first, the session has not terminated and `remove` has not yet
run). -/
def sessionLoop (id : Nat) : List Event → Connections → Connections × (List (List Nat) × Bool)
  | [], s => (s, ([], false))
  | ev :: rest, s =>
    match sessionStep id ev with
    | StepResult.broke => (s.remove id, ([], true))
    | StepResult.continued msg _ =>
      let r := sessionLoop id rest
        (match msg with
         | some m => (s.broadcast m).1
         | none => s)
      (r.1, (msg.toList ++ r.2.1, r.2.2))

/-- Model of `handle_stream` (src/main.rs:76-116): store the connection, run
the read loop over the event trace, deregister on loop exit.  Returns the
final registry, the assigned id, the broadcast log, and the termination flag. -/
def handle_stream (c : Conn) (events : List Event) (s : Connections) :
    Connections × (Nat × (List (List Nat) × Bool)) :=
  let r := s.store c
  let l := sessionLoop r.2 events r.1
  (l.1, (r.2, l.2))

/-- The broadcast messages the loop produces on an event trace, as a function
of the trace alone (the registry state does not influence them). -/
def logOf (id : Nat) : List Event → List (List Nat)
  | [] => []
  | ev :: rest =>
    match sessionStep id ev with
    | StepResult.broke => []
    | StepResult.continued msg _ => msg.toList ++ logOf id rest

/-- A registry operation, for stating lifetime invariants over arbitrary call
sequences. -/
inductive Op
  | store (c : Conn)
  | remove (id : Nat)
  | broadcast (buf : List Nat)

/-- Run a sequence of registry operations, collecting the ids returned by the
`store` calls. -/
def runOps : List Op → Connections → Connections × List Nat
  | [], s => (s, [])
  | Op.store c :: rest, s =>
    let r := s.store c
    let r2 := runOps rest r.1
    (r2.1, r.2 :: r2.2)
  | Op.remove id :: rest, s => runOps rest (s.remove id)
  | Op.broadcast buf :: rest, s => runOps rest (s.broadcast buf).1

/-- Number of `store` calls in an operation sequence. -/
def countStores : List Op → Nat
  | [] => 0
  | Op.store _ :: rest => countStores rest + 1
  | Op.remove _ :: rest => countStores rest
  | Op.broadcast _ :: rest => countStores rest

/-- The ids handed out by a sequence of operations run on a fresh registry. -/
def issuedIds (ops : List Op) : List Nat := (runOps ops Connections.new).2

/-! ## Helper lemmas -/

/-- Looking up an id in a list from which every entry with that key was
filtered out yields nothing. -/
theorem lookup_filter_ne (id : Nat) :
    ∀ l : List (Nat × Conn), List.lookup id (l.filter (fun p => p.1 != id)) = none := by
  intro l
  induction l with
  | nil => simp
  | cons p t ih =>
    by_cases h : p.1 = id
    · simp [List.filter_cons, h, ih]
    · have hb : (id == p.1) = false := beq_eq_false_iff_ne.mpr (Ne.symm h)
      simp [List.filter_cons, h, List.lookup, hb, ih]

/-- `from_utf8_lossy` is the identity on ASCII byte lists. -/
theorem from_utf8_lossy_ascii :
    ∀ l : List Nat, (∀ b ∈ l, b ≤ 127) → from_utf8_lossy l = l := by
  intro l
  induction l with
  | nil => intro _; rfl
  | cons b t ih =>
    intro h
    have hb : b ≤ 127 := h b (List.mem_cons_self b t)
    rw [from_utf8_lossy.eq_def]
    simp [hb, ih (fun x hx => h x (List.mem_cons_of_mem b hx))]

/-! ## Claim theorems -/

/-- C9: `Connections::broadcast` never mutates the registry: for every buffer
and every registry contents, the counter and the set of `(id, connection)`
entries after the call are exactly what they were before. -/
theorem broadcast_preserves_registry (s : Connections) (buf : List Nat) :
    (s.broadcast buf).1.counter = s.counter ∧
    (s.broadcast buf).1.connections = s.connections :=
  ⟨rfl, rfl⟩

/-- C5: when the connection's stream lock is already held, `Conn::write`
returns success with zero bytes written; when the lock is free, it performs
the underlying socket write and returns that write's result. -/
theorem conn_write_busy_skip (c : Conn) (buf : List Nat) :
    (c.locked = true → c.write buf = Except.ok 0) ∧
    (c.locked = false → c.write buf = c.writeFn buf) := by
  constructor <;> intro h <;> simp [Conn.write, h]

/-- Witness for C5: a locked connection's write is `Ok(0)`; an unlocked
connection's write is the underlying socket result. -/
theorem conn_write_busy_skip_witness :
    Conn.write ⟨true, fun _ => Except.ok 5⟩ [1, 2] = Except.ok 0 ∧
    Conn.write ⟨false, fun _ => Except.ok 5⟩ [1, 2] = Except.ok 5 :=
  ⟨(conn_write_busy_skip ⟨true, fun _ => Except.ok 5⟩ [1, 2]).1 rfl,
   (conn_write_busy_skip ⟨false, fun _ => Except.ok 5⟩ [1, 2]).2 rfl⟩

/-- C7: `Connections::remove` of an identifier absent from the mapping leaves
the registry unchanged, and removing the same identifier twice equals removing
it once. -/
theorem remove_absent_noop_idempotent :
    (∀ (s : Connections) (id : Nat),
        (∀ c : Conn, (id, c) ∉ s.connections) → s.remove id = s) ∧
    (∀ (s : Connections) (id : Nat), (s.remove id).remove id = s.remove id) := by
  constructor
  · intro s id h
    obtain ⟨cnt, l⟩ := s
    simp only [Connections.remove, Connections.mk.injEq, true_and]
    apply List.filter_eq_self.mpr
    intro p hp
    have hne : p.1 ≠ id := by
      intro he
      exact h p.2 (by rw [← he]; exact hp)
    simpa using hne
  · intro s id
    simp [Connections.remove, List.filter_filter]

/-- Witness for C7: removing the absent id 2 from a registry holding only id 1
is a no-op, and removing id 1 twice equals removing it once. -/
theorem remove_absent_noop_idempotent_witness :
    Connections.remove ⟨1, [(1, dummyConn)]⟩ 2 = ⟨1, [(1, dummyConn)]⟩ ∧
    (Connections.remove (Connections.remove ⟨1, [(1, dummyConn)]⟩ 1) 1 =
      Connections.remove ⟨1, [(1, dummyConn)]⟩ 1) :=
  ⟨remove_absent_noop_idempotent.1 ⟨1, [(1, dummyConn)]⟩ 2 (by
      intro c hc
      simp only [List.mem_singleton, Prod.mk.injEq] at hc
      omega),
   remove_absent_noop_idempotent.2 ⟨1, [(1, dummyConn)]⟩ 1⟩

/-- C4 (amended): `Connections::store` allocates the id
`(previous counter + 1) % 2^32` — which is `1` on a fresh registry — sets the
counter to it, inserts the given connection under exactly that id, and returns
it; afterwards the mapping maps that id to that connection. -/
theorem store_allocates_next_id_mod_u32 :
    (∀ (s : Connections) (c : Conn),
        (s.store c).2 = (s.counter + 1) % U32 ∧
        (s.store c).1.counter = (s.counter + 1) % U32 ∧
        List.lookup (s.store c).2 (s.store c).1.connections = some c) ∧
    (∀ c : Conn, (Connections.new.store c).2 = 1) := by
  constructor
  · intro s c
    refine ⟨rfl, rfl, ?_⟩
    simp [Connections.store]
  · intro c
    simp [Connections.store, Connections.new, U32]

/-- Counterexample for C4 as stated: when the `u32` counter holds
`2^32 - 1`, `store` returns `0`, not the previous counter value plus one. -/
theorem store_id_wraps_at_u32_max :
    (Connections.store ⟨U32 - 1, []⟩ dummyConn).2 ≠ (U32 - 1) + 1 := by
  norm_num [Connections.store, U32]

/-- C6: `broadcast` invokes `Conn::write` once per registered connection —
the log has exactly one entry per entry of the mapping, in order — and every
registered connection receives its own delivery attempt with its own write
result, regardless of the results (including errors) of the others; the
function is total and returns no error. -/
theorem broadcast_attempts_all (s : Connections) (buf : List Nat) :
    ((s.broadcast buf).2.map Prod.fst = s.connections.map Prod.fst) ∧
    (∀ (id : Nat) (c : Conn), (id, c) ∈ s.connections →
        (id, c.write buf) ∈ (s.broadcast buf).2) := by
  constructor
  · simp [Connections.broadcast]
  · intro id c h
    exact List.mem_map.mpr ⟨(id, c), h, rfl⟩

/-- Witness for C6: in a registry with two connections, one of whose socket
writes fails, both connections appear in the broadcast log with their own
results. -/
theorem broadcast_attempts_all_witness :
    (2, Conn.write ⟨false, fun _ => Except.error IoErrorKind.other⟩ [7]) ∈
      (Connections.broadcast
        ⟨2, [(1, ⟨false, fun _ => Except.ok 3⟩),
             (2, ⟨false, fun _ => Except.error IoErrorKind.other⟩)]⟩ [7]).2 ∧
    (1, Conn.write ⟨false, fun _ => Except.ok 3⟩ [7]) ∈
      (Connections.broadcast
        ⟨2, [(1, ⟨false, fun _ => Except.ok 3⟩),
             (2, ⟨false, fun _ => Except.error IoErrorKind.other⟩)]⟩ [7]).2 :=
  ⟨(broadcast_attempts_all
      ⟨2, [(1, ⟨false, fun _ => Except.ok 3⟩),
           (2, ⟨false, fun _ => Except.error IoErrorKind.other⟩)]⟩ [7]).2 2
      ⟨false, fun _ => Except.error IoErrorKind.other⟩
      (List.mem_cons_of_mem _ (List.mem_cons_self _ _)),
   (broadcast_attempts_all
      ⟨2, [(1, ⟨false, fun _ => Except.ok 3⟩),
           (2, ⟨false, fun _ => Except.error IoErrorKind.other⟩)]⟩ [7]).2 1
      ⟨false, fun _ => Except.ok 3⟩
      (List.mem_cons_self _ _)⟩

/-- The ids a run of registry operations hands out: the i-th `store` call
(1-based) started from counter `cnt` returns `(cnt + i) % 2^32`; `remove` and
`broadcast` do not touch the counter. -/
theorem runOps_ids :
    ∀ (ops : List Op) (s : Connections),
      (runOps ops s).2 =
        (List.range (countStores ops)).map (fun i => (s.counter + i + 1) % U32) := by
  intro ops
  induction ops with
  | nil => intro s; simp [runOps, countStores]
  | cons op rest ih =>
    intro s
    cases op with
    | store c =>
      simp only [runOps, countStores, ih, Connections.store, List.range_succ_eq_map,
        List.map_cons, List.map_map]
      refine List.cons_eq_cons.mpr ⟨by simp, ?_⟩
      apply List.map_congr_left
      intro i _
      simp only [Function.comp_apply, U32, Nat.succ_eq_add_one]
      omega
    | remove id => simpa [runOps, countStores, Connections.remove] using ih (s.remove id)
    | broadcast buf => simpa [runOps, countStores] using ih s

/-- C3 (amended): over the lifetime of one registry, the ids returned by
`store` are pairwise distinct — hence a deregistered id is never handed out
again — provided the total number of `store` calls does not exceed `2^32`
(the `u32` counter wraps modulo `2^32` past that point). -/
theorem store_ids_pairwise_distinct (ops : List Op) (h : countStores ops ≤ U32) :
    (issuedIds ops).Pairwise (· ≠ ·) := by
  have hids : issuedIds ops =
      (List.range (countStores ops)).map (fun i => (i + 1) % U32) := by
    rw [issuedIds, runOps_ids ops Connections.new]
    apply List.map_congr_left
    intro i _
    simp [Connections.new]
  rw [hids]
  have : ((List.range (countStores ops)).map (fun i => (i + 1) % U32)).Nodup := by
    apply List.Nodup.map_on _ (List.nodup_range _)
    intro x hx y hy hxy
    rw [List.mem_range] at hx hy
    have hx2 : x < U32 := lt_of_lt_of_le hx h
    have hy2 : y < U32 := lt_of_lt_of_le hy h
    simp only [U32] at hx2 hy2 hxy
    omega
  exact this

/-- Counterexample for C3 as stated: run `2^32 + 1` registrations on one
registry; the first and the last return the same id `1`, so the issued ids are
not pairwise distinct. -/
theorem store_ids_repeat_after_wraparound :
    ¬ (issuedIds (List.replicate (U32 + 1) (Op.store dummyConn))).Pairwise (· ≠ ·) := by
  have hcount : ∀ n : Nat, countStores (List.replicate n (Op.store dummyConn)) = n := by
    intro n
    induction n with
    | zero => rfl
    | succ k ih => simp [List.replicate_succ, countStores, ih]
  intro h
  rw [issuedIds, runOps_ids _ Connections.new, hcount] at h
  rw [List.pairwise_iff_getElem] at h
  have hlen : ((List.range (U32 + 1)).map
      (fun i => (Connections.new.counter + i + 1) % U32)).length = U32 + 1 := by
    simp
  have h0 : 0 < ((List.range (U32 + 1)).map
      (fun i => (Connections.new.counter + i + 1) % U32)).length := by omega
  have hU : U32 < ((List.range (U32 + 1)).map
      (fun i => (Connections.new.counter + i + 1) % U32)).length := by omega
  have := h 0 U32 h0 hU (by simp [U32])
  simp only [List.getElem_map, List.getElem_range, Connections.new] at this
  apply this
  simp [U32]

/-- Witness for C3: a run of two registrations and a removal stays under the
`2^32` bound and its issued ids are pairwise distinct. -/
theorem store_ids_pairwise_distinct_witness :
    countStores [Op.store dummyConn, Op.store dummyConn, Op.remove 1] ≤ U32 ∧
    (issuedIds [Op.store dummyConn, Op.store dummyConn, Op.remove 1]).Pairwise (· ≠ ·) :=
  ⟨by norm_num [countStores, U32],
   store_ids_pairwise_distinct [Op.store dummyConn, Op.store dummyConn, Op.remove 1]
     (by norm_num [countStores, U32])⟩

/-- The broadcast log of the session loop is a function of the event trace
alone; the registry state passed in does not influence it. -/
theorem sessionLoop_log (id : Nat) :
    ∀ (events : List Event) (s : Connections),
      (sessionLoop id events s).2.1 = logOf id events := by
  intro events
  induction events with
  | nil => intro s; rfl
  | cons ev rest ih =>
    intro s
    cases hs : sessionStep id ev with
    | broke => simp [sessionLoop, logOf, hs]
    | continued msg slp => simp [sessionLoop, logOf, hs, ih]

/-- Over a prefix in which no iteration breaks, `logOf` distributes over
appending of traces. -/
theorem logOf_append (id : Nat) :
    ∀ (p q : List Event), (∀ ev ∈ p, sessionStep id ev ≠ StepResult.broke) →
      logOf id (p ++ q) = logOf id p ++ logOf id q := by
  intro p
  induction p with
  | nil => intro q _; rfl
  | cons ev rest ih =>
    intro q h
    cases hs : sessionStep id ev with
    | broke => exact absurd hs (h ev (List.mem_cons_self ev rest))
    | continued msg slp =>
      simp [logOf, hs, ih q (fun x hx => h x (List.mem_cons_of_mem ev hx))]

/-- Once the session loop breaks, the session's id is gone from the mapping of
the final registry state. -/
theorem sessionLoop_terminated_lookup (id : Nat) :
    ∀ (events : List Event) (s : Connections),
      (sessionLoop id events s).2.2 = true →
      List.lookup id (sessionLoop id events s).1.connections = none := by
  intro events
  induction events with
  | nil => intro s h; simp [sessionLoop] at h
  | cons ev rest ih =>
    intro s h
    cases hs : sessionStep id ev with
    | broke =>
      simp only [sessionLoop, hs]
      exact lookup_filter_ne id s.connections
    | continued msg slp =>
      simp only [sessionLoop, hs] at h ⊢
      exact ih _ h

/-- C8: in the session loop, each read outcome drives exactly the specified
transition — a positive read broadcasts the tagged message and stays in the
loop, a zero-byte read breaks, `WouldBlock` sleeps 10 ms and stays, any other
read error breaks — and on every terminating run the session's id has been
removed from the registry mapping by the time the session ends. -/
theorem session_loop_transitions :
    (∀ (id : Nat) (o : Option IoErrorKind) (data : List Nat), data ≠ [] →
        sessionStep id ⟨Except.ok o, Except.ok data⟩ =
          StepResult.continued (some (message id data)) none) ∧
    (∀ (id : Nat) (o : Option IoErrorKind),
        sessionStep id ⟨Except.ok o, Except.ok []⟩ = StepResult.broke) ∧
    (∀ (id : Nat) (o : Option IoErrorKind),
        sessionStep id ⟨Except.ok o, Except.error IoErrorKind.wouldBlock⟩ =
          StepResult.continued none (some 10)) ∧
    (∀ (id : Nat) (o : Option IoErrorKind),
        sessionStep id ⟨Except.ok o, Except.error IoErrorKind.other⟩ = StepResult.broke) ∧
    (∀ (c : Conn) (events : List Event) (s : Connections),
        (handle_stream c events s).2.2.2 = true →
        List.lookup (handle_stream c events s).2.1
          (handle_stream c events s).1.connections = none) := by
  refine ⟨?_, ?_, ?_, ?_, ?_⟩
  · intro id o data h
    cases data with
    | nil => exact absurd rfl h
    | cons b t => simp [sessionStep]
  · intro id o; simp [sessionStep]
  · intro id o; simp [sessionStep]
  · intro id o; simp [sessionStep]
  · intro c events s h
    exact sessionLoop_terminated_lookup _ events _ h

/-- Witness for C8: a one-byte read broadcasts the tagged message; a trace
ending in a zero-byte read terminates with the id deregistered. -/
theorem session_loop_transitions_witness :
    sessionStep 1 ⟨Except.ok none, Except.ok [104]⟩ =
      StepResult.continued (some (message 1 [104])) none ∧
    (handle_stream dummyConn [⟨Except.ok none, Except.ok []⟩] Connections.new).2.2.2 = true ∧
    List.lookup (handle_stream dummyConn [⟨Except.ok none, Except.ok []⟩] Connections.new).2.1
      (handle_stream dummyConn [⟨Except.ok none, Except.ok []⟩] Connections.new).1.connections =
      none :=
  ⟨session_loop_transitions.1 1 none [104] (by simp),
   rfl,
   session_loop_transitions.2.2.2.2 dummyConn [⟨Except.ok none, Except.ok []⟩]
     Connections.new rfl⟩

/-- C10: the read buffer is freshly zero-initialised every iteration, so every
buffer byte past the bytes read in the current call is zero; and the broadcast
messages a session produces from some iteration on are a function of the
events from that iteration on alone — runs that agree from iteration `k`
onwards (with no break before `k`) produce identical later payloads, whatever
was read earlier. -/
theorem fresh_buffer_no_leak :
    (∀ (data : List Nat) (j : Nat), data.length ≤ 1024 → data.length ≤ j → j < 1024 →
        (bufAfterRead data)[j]? = some 0) ∧
    (∀ (id k : Nat) (es1 es2 : List Event) (s1 s2 : Connections),
        es1.drop k = es2.drop k →
        (∀ ev ∈ es1.take k, sessionStep id ev ≠ StepResult.broke) →
        (∀ ev ∈ es2.take k, sessionStep id ev ≠ StepResult.broke) →
        ((sessionLoop id es1 s1).2.1).drop (logOf id (es1.take k)).length =
          ((sessionLoop id es2 s2).2.1).drop (logOf id (es2.take k)).length) := by
  constructor
  · intro data j hdata hj hj2
    rw [bufAfterRead, List.getElem?_append_right hj, List.getElem?_replicate]
    rw [if_pos (by omega)]
  · intro id k es1 es2 s1 s2 hsuffix h1 h2
    have e1 : logOf id es1 = logOf id (es1.take k) ++ logOf id (es1.drop k) := by
      conv_lhs => rw [← List.take_append_drop k es1]
      exact logOf_append id _ _ h1
    have e2 : logOf id es2 = logOf id (es2.take k) ++ logOf id (es2.drop k) := by
      conv_lhs => rw [← List.take_append_drop k es2]
      exact logOf_append id _ _ h2
    rw [sessionLoop_log, sessionLoop_log, e1, e2, List.drop_left, List.drop_left, hsuffix]

/-- Witness for C10: with two bytes read, buffer position 2 is the zero byte,
and two length-1 traces that agree from iteration 1 on produce the same later
payloads. -/
theorem fresh_buffer_no_leak_witness :
    (bufAfterRead [104, 105])[2]? = some 0 ∧
    ((sessionLoop 7 [⟨Except.ok none, Except.ok [104]⟩] Connections.new).2.1).drop
        (logOf 7 ([⟨Except.ok none, Except.ok [104]⟩].take 1)).length =
      ((sessionLoop 7 [⟨Except.ok none, Except.ok [105]⟩] Connections.new).2.1).drop
        (logOf 7 ([⟨Except.ok none, Except.ok [105]⟩].take 1)).length :=
  ⟨fresh_buffer_no_leak.1 [104, 105] 2 (by norm_num) (by norm_num) (by norm_num),
   fresh_buffer_no_leak.2 7 1 [⟨Except.ok none, Except.ok [104]⟩]
     [⟨Except.ok none, Except.ok [105]⟩] Connections.new Connections.new rfl
     (by intro ev hev; simp at hev; subst hev; simp [sessionStep])
     (by intro ev hev; simp at hev; subst hev; simp [sessionStep])⟩

/-- C1: for session id 1 and a positive read of the two bytes `hi`
(`[104, 105]`), the broadcast message is NOT `"[1] hi"`: the code lossily
decodes the whole 1024-byte buffer, so the message is `"[1] hi"` followed by
the 1022 zero bytes left in the freshly zero-initialised buffer. -/
theorem message_padded_with_nuls :
    message 1 [104, 105] = [91, 49, 93, 32] ++ ([104, 105] ++ List.replicate 1022 0) ∧
    message 1 [104, 105] ≠ [91, 49, 93, 32] ++ [104, 105] := by
  have hbuf : bufAfterRead [104, 105] = [104, 105] ++ List.replicate 1022 0 := by
    norm_num [bufAfterRead]
  have hlossy : from_utf8_lossy ([104, 105] ++ List.replicate 1022 0) =
      [104, 105] ++ List.replicate 1022 0 := by
    apply from_utf8_lossy_ascii
    intro b hb
    rcases List.mem_append.mp hb with h | h
    · simp only [List.mem_cons, List.not_mem_nil, or_false] at h
      rcases h with h | h <;> omega
    · rw [List.eq_of_mem_replicate h]
      norm_num
  have htag : tagBytes 1 = [91, 49, 93, 32] := by decide
  have hmsg : message 1 [104, 105] =
      [91, 49, 93, 32] ++ ([104, 105] ++ List.replicate 1022 0) := by
    rw [message, hbuf, hlossy, htag]
  refine ⟨hmsg, ?_⟩
  rw [hmsg]
  intro h
  have hlen := congrArg List.length h
  simp only [List.length_append, List.length_replicate, List.length_cons,
    List.length_nil] at hlen
  omega

/-- C2: when the health check reports a pending asynchronous socket error —
`take_error()` returning `Ok(Some(e))` — the loop iteration does NOT break:
the `Ok(_)` arm swallows the reported error and the code goes on to read and
broadcast, contrary to the claim (and to the code's own comment at
src/main.rs:82, "Close if there was an error"). -/
theorem pending_error_ignored :
    sessionStep 1 ⟨Except.ok (some IoErrorKind.other), Except.ok [104]⟩ ≠ StepResult.broke ∧
    sessionStep 1 ⟨Except.ok (some IoErrorKind.other), Except.ok [104]⟩ =
      StepResult.continued (some (message 1 [104])) none := by
  refine ⟨?_, rfl⟩
  intro h
  simp only [sessionStep, List.isEmpty] at h
  exact StepResult.noConfusion h
